import Mathlib

/-!
# The AVS client (`client.go`): status classification, event responses, downchannel

A shallow embedding of `checkStatusCode`, `Client.Do`, `Client.CreateDownchannel` and
`Client.Ping`.

What the Go standard library returns is an input of the model:

* an HTTP response is the record of what the client observes on it (status, the
  request-identifier header, what `ioutil.ReadAll` yields on the body, what the multipart
  reader yields on it);
* a multipart part is the record of its two headers and of what `ioutil.ReadAll` yields on it;
* `json.Unmarshal` and `mime.ParseMediaType` are the fields of `Lib`.

Go strings and byte slices are lists of bytes, `*T` is `Option T` (`none` is `nil`),
`map[string][]byte` is an association list without repeated keys.
-/

set_option autoImplicit false

namespace Avs

/-! ## Data -/

/-- Go `string`: a sequence of bytes. -/
abbrev GoString := List UInt8

/-- Go `[]byte`. -/
abbrev Bytes := List UInt8

/-- The bytes of an ASCII literal. -/
def ascii (s : String) : GoString := s.toList.map (fun c => UInt8.ofNat c.toNat)

/-- Modelled from the spec: the `Message` type is declared outside client.go; the client never
looks inside a directive, so it is kept as the document it was decoded from. -/
structure Message where
  doc : Bytes
  deriving DecidableEq, Repr

/-- Modelled from the spec: the payload of `Exception` (declared outside client.go), "a
machine-readable code and human-readable message". client.go reads `Payload.Code` only. -/
structure ExceptionPayload where
  Code : GoString
  Message : GoString
  deriving DecidableEq, Repr

/-- Modelled from the spec: the `Exception` type (declared outside client.go). Its zero value
has the empty code. -/
structure Exception where
  Payload : ExceptionPayload
  deriving DecidableEq, Repr

/-- The zero value of `Exception` (`var exception Exception`). -/
def Exception.zero : Exception := ⟨⟨[], []⟩⟩

/-- The multipart object returned by AVS (`type responsePart struct`). -/
structure responsePart where
  Directive : Option Message
  deriving DecidableEq, Repr

/-- An error value made outside client.go: transport, multipart framing, mime or json. -/
structure ExternalError where
  text : String
  deriving DecidableEq, Repr

/-- A `*multipart.Part` as client.go observes it. -/
structure Part where
  /-- The value of `p.Header.Get("Content-Type")`, empty when the header is absent. -/
  ContentType : GoString
  /-- The value of `p.Header.Get("Content-ID")`, empty when the header is absent. -/
  ContentID : GoString
  /-- The value of `ioutil.ReadAll(p)`: the bytes read and the error, if any. -/
  ReadAll : Bytes × Option ExternalError
  deriving DecidableEq, Repr

/-- The error values client.go returns. -/
inductive Error where
  /-- An error handed on unchanged from a library call. -/
  | external (e : ExternalError)
  /-- The decoded exception, `&exception`. -/
  | exception (e : Exception)
  /-- The error `fmt.Errorf("request failed with %s", resp.Status)`. -/
  | requestFailed (status : GoString)
  /-- The error `fmt.Errorf("missing directive %s", string(data))`. -/
  | missingDirective (data : Bytes)
  /-- The error `fmt.Errorf("unhandled part %s", p)`. -/
  | unhandledPart (p : Part)
  deriving DecidableEq, Repr

/-- A multipart reader: the results of the successive `mr.NextPart()` calls. Once the list
is used up `NextPart` returns `io.EOF`. -/
abbrev MultipartReader := List (Except ExternalError Part)

/-- A received `*http.Response` as client.go observes it. -/
structure HttpResponse where
  StatusCode : Int
  /-- The status text, `resp.Status`. -/
  Status : GoString
  /-- The value of `resp.Header.Get("x-amzn-requestid")`. -/
  RequestId : GoString
  /-- The value of `ioutil.ReadAll(resp.Body)`: the bytes read and the error, if any. -/
  Body : Bytes × Option ExternalError
  /-- The value of `newMultipartReaderFromResponse(resp)`: an error, or the reader. -/
  Multipart : Except ExternalError MultipartReader

/-- The library calls whose result depends on bytes only. -/
structure Lib where
  /-- The call `json.Unmarshal(data, &exception)` on a zero `Exception`: the value left in
  `exception` and the returned error. -/
  unmarshalException : Bytes → Exception × Option ExternalError
  /-- The call `json.Unmarshal(data, &response)` on a zero `responsePart`. -/
  unmarshalResponsePart : Bytes → responsePart × Option ExternalError
  /-- The call `mime.ParseMediaType(v)`: the media type, or the error. -/
  parseMediaType : GoString → Except ExternalError GoString

/-- The `Response` built by `Do`. -/
structure Response where
  RequestId : GoString
  /-- The field of type `[]*Message`. -/
  Directives : List (Option Message)
  /-- The field of type `map[string][]byte`. -/
  Content : List (GoString × Bytes)
  deriving DecidableEq, Repr

/-- How a call that returns `(*T, error)` ends. -/
inductive Outcome (α : Type) where
  /-- Returns `(a, nil)`. -/
  | ok (a : α)
  /-- Returns `(nil, e)`. -/
  | error (e : Error)
  /-- Aborts with a run-time panic. -/
  | panic
  deriving DecidableEq, Repr

/-! ## Go primitives -/

/-- The map assignment `m[k] = v`. -/
def mapSet : List (GoString × Bytes) → GoString → Bytes → List (GoString × Bytes)
  | [], k, v => [(k, v)]
  | (k', v') :: rest, k, v =>
    if k' = k then (k, v) :: rest else (k', v') :: mapSet rest k v

/-- The map lookup `m[k]`. -/
def mapGet : List (GoString × Bytes) → GoString → Option Bytes
  | [], _ => none
  | (k', v') :: rest, k => if k' = k then some v' else mapGet rest k

/-- The slice expression `s[lo:hi]` on a string: `none` is the run-time panic raised unless
`0 ≤ lo ≤ hi ≤ len(s)`. -/
def sliceString (s : GoString) (lo hi : Int) : Option GoString :=
  if 0 ≤ lo ∧ lo ≤ hi ∧ hi ≤ (s.length : Int) then
    some ((s.take hi.toNat).drop lo.toNat)
  else none

/-! ## `checkStatusCode` -/

/-- The function `checkStatusCode` (lines 192-211): `(more, err)`. -/
def checkStatusCode (L : Lib) (resp : HttpResponse) : Bool × Option Error :=
  if resp.StatusCode = 200 then
    (true, none)
  else if resp.StatusCode = 204 then
    (false, none)
  else
    let data := resp.Body.1
    let exception := (L.unmarshalException data).1
    if exception.Payload.Code ≠ [] then
      (false, some (Error.exception exception))
    else
      (false, some (Error.requestFailed resp.Status))

/-- The method `Ping` (lines 172-186): the returned error. `sent` is what building and
sending the request gives. -/
def Client.Ping (L : Lib) (sent : Except ExternalError HttpResponse) : Option Error :=
  match sent with
  | .error e => some (.external e)
  | .ok resp => (checkStatusCode L resp).2

/-! ## `Client.Do` -/

/-- The body of the parsing loop of `Do` on one part (lines 140-165): the response to go on
with, or the way `Do` ends. -/
def Client.Do.part (L : Lib) (p : Part) (response : Response) : Outcome Response :=
  match L.parseMediaType p.ContentType with
  | .error e => .error (.external e)
  | .ok mediatype =>
    match p.ReadAll with
    | (_, some e) => .error (.external e)
    | (data, none) =>
      let contentId := p.ContentID
      if contentId ≠ [] then
        match sliceString contentId 1 ((contentId.length : Int) - 1) with
        | none => .panic
        | some key => .ok { response with Content := mapSet response.Content key data }
      else if mediatype = ascii "application/json" then
        match L.unmarshalResponsePart data with
        | (_, some e) => .error (.external e)
        | (resp, none) =>
          match resp.Directive with
          | none => .error (.missingDirective data)
          | some d => .ok { response with Directives := response.Directives ++ [some d] }
      else .error (.unhandledPart p)

/-- The parsing loop of `Do` (lines 132-167). -/
def Client.Do.loop (L : Lib) : MultipartReader → Response → Outcome Response
  | [], response => .ok response
  | .error e :: _, _ => .error (.external e)
  | .ok p :: mr, response =>
    match Client.Do.part L p response with
    | .ok response' => Client.Do.loop L mr response'
    | .error e => .error e
    | .panic => .panic

/-- The method `Do` from the point where the request has been built and sent (lines
109-168). `sent` is what building and sending the request gives: the transport error, or the
received response. -/
def Client.Do (L : Lib) (sent : Except ExternalError HttpResponse) : Outcome Response :=
  match sent with
  | .error e => .error (.external e)
  | .ok resp =>
    match checkStatusCode L resp with
    | (_, some err) => .error err
    | (more, none) =>
      let response : Response :=
        { RequestId := resp.RequestId, Directives := [], Content := [] }
      if !more then .ok response
      else
        match resp.Multipart with
        | .error e => .error (.external e)
        | .ok mr => Client.Do.loop L mr response

/-! ## `Client.CreateDownchannel` -/

/-- What the background goroutine does on the channel `directives`. -/
inductive ChanEvent where
  /-- The send `directives <- d`. -/
  | send (d : Option Message)
  /-- The call `close(directives)`. -/
  | close
  deriving DecidableEq, Repr

/-- The loop of the goroutine (lines 49-64): the sends it makes, in order, when every send
finds a receiver. -/
def Client.CreateDownchannel.loop (L : Lib) : MultipartReader → List ChanEvent
  | [] => []
  | .error _ :: _ => []
  | .ok p :: mr =>
    match p.ReadAll with
    | (_, some _) => []
    | (data, none) =>
      match L.unmarshalResponsePart data with
      | (_, some _) => []
      | (response, none) => .send response.Directive :: Client.CreateDownchannel.loop L mr

/-- The goroutine (lines 41-65): the loop, then the deferred `close(directives)`. -/
def Client.CreateDownchannel.goroutine (L : Lib) (resp : HttpResponse) : List ChanEvent :=
  (match resp.Multipart with
    | .error _ => []
    | .ok mr => Client.CreateDownchannel.loop L mr) ++ [.close]

/-- The method `CreateDownchannel` (lines 25-67): the returned channel and error. The channel
is `none` for a nil channel and otherwise given by what its goroutine does on it. -/
def Client.CreateDownchannel (L : Lib) (sent : Except ExternalError HttpResponse) :
    Option (List ChanEvent) × Option Error :=
  match sent with
  | .error e => (none, some (.external e))
  | .ok resp =>
    match checkStatusCode L resp with
    | (false, err) => (none, err)
    | (true, _) => (some (Client.CreateDownchannel.goroutine L resp), none)

/-- The values a consumer receives from a channel with the given events. -/
def delivered : List ChanEvent → List (Option Message)
  | [] => []
  | .close :: _ => []
  | .send d :: events => d :: delivered events

/-- What a consumer that keeps receiving from the returned channel sees. -/
structure Observed where
  /-- The values received, in order. -/
  received : List (Option Message)
  /-- Whether the consumer sees the end of the sequence (the channel closed). -/
  ended : Bool
  deriving DecidableEq, Repr

/-- A receive from a nil channel blocks forever: nothing is received and the end is never
seen. On a channel, the consumer receives what is sent and sees the close. -/
def observe : Option (List ChanEvent) → Observed
  | none => { received := [], ended := false }
  | some events => { received := delivered events, ended := events.contains .close }

/-! ## Sample inputs -/

/-- A library instance for the examples. It answers as encoding/json and mime do on the
values listed here. Every other body is answered as a JSON syntax error, which leaves the
target untouched; every other header value is returned as the media type, as for a bare
lower-case media type. -/
def sampleLib : Lib where
  unmarshalException := fun data =>
    if data = ascii "\x7b\"payload\":\x7b\"code\":\"X\",\"message\":\"Y\"\x7d\x7d" then
      (⟨⟨ascii "X", ascii "Y"⟩⟩, none)
    else if data = ascii "\x7b\"payload\":\x7b\"code\":\"X\",\"code\":5\x7d\x7d" then
      (⟨⟨ascii "X", []⟩⟩,
        some ⟨"json: cannot unmarshal number into Go struct field of type string"⟩)
    else if data = ascii "\x7b\x7d" then
      (Exception.zero, none)
    else if data = [] then
      (Exception.zero, some ⟨"unexpected end of JSON input"⟩)
    else
      (Exception.zero, some ⟨"invalid character"⟩)
  unmarshalResponsePart := fun data =>
    if data = ascii "\x7b\"directive\":\x7b\"id\":\"1\"\x7d\x7d" then
      (⟨some ⟨ascii "\x7b\"id\":\"1\"\x7d"⟩⟩, none)
    else if data = ascii "\x7b\"directive\":\x7b\"id\":\"2\"\x7d\x7d" then
      (⟨some ⟨ascii "\x7b\"id\":\"2\"\x7d"⟩⟩, none)
    else if data = ascii "\x7b\x7d" then
      (⟨none⟩, none)
    else if data = ascii "\x7b\"directive\":\x7b\"id\"" then
      (⟨none⟩, some ⟨"unexpected end of JSON input"⟩)
    else
      (⟨none⟩, some ⟨"invalid character"⟩)
  parseMediaType := fun v =>
    if v = [] then .error ⟨"mime: no media type"⟩
    else if v = ascii "application/json; charset=UTF-8" then .ok (ascii "application/json")
    else .ok v

/-- A part with the JSON content type and no Content-ID. -/
def jsonPart (body : String) : Part :=
  { ContentType := ascii "application/json", ContentID := [], ReadAll := (ascii body, none) }

/-- A part with the binary content type and the given Content-ID. -/
def contentPart (contentId : String) (body : Bytes) : Part :=
  { ContentType := ascii "application/octet-stream", ContentID := ascii contentId,
    ReadAll := (body, none) }

/-- A response with the given status code and parts. -/
def sampleResponse (code : Int) (body : String) (parts : List Part) : HttpResponse :=
  { StatusCode := code, Status := ascii "status", RequestId := ascii "req-1",
    Body := (ascii body, none), Multipart := .ok (parts.map .ok) }


/-- The body `{"directive":{"id":"1"}}`. -/
def directiveBody : String := "\x7b\"directive\":\x7b\"id\":\"1\"\x7d\x7d"

/-- The scenario of the specification: status 200, one JSON part with a directive and one
part with the Content-ID `<img1>`. -/
def scenarioResponse : HttpResponse :=
  sampleResponse 200 "" [jsonPart directiveBody, contentPart "<img1>" [0xFF, 0xD8]]

/-- The Response of the scenario. -/
def scenarioResult : Response :=
  { RequestId := ascii "req-1", Directives := [some ⟨ascii "\x7b\"id\":\"1\"\x7d"⟩],
    Content := [(ascii "img1", [0xFF, 0xD8])] }

/-- Status 200 with two parts that carry the same Content-ID `<a>`. -/
def repeatedIdResponse : HttpResponse :=
  sampleResponse 200 "" [contentPart "<a>" [1], contentPart "<a>" [2]]

/-- A part with the Content-ID `<a>` and no Content-Type header. -/
def untypedContentPart : Part :=
  { ContentType := [], ContentID := ascii "<a>", ReadAll := ([1], none) }

/-- The body `{"directive":{"id":"2"}}`. -/
def secondDirectiveBody : String := "\x7b\"directive\":\x7b\"id\":\"2\"\x7d\x7d"

/-- The truncated body `{"directive":{"id"`. -/
def truncatedBody : String := "\x7b\"directive\":\x7b\"id\""

/-- A downchannel response with status 200: a directive, a truncated part, a directive. -/
def truncatedStream : HttpResponse :=
  sampleResponse 200 "" [jsonPart directiveBody, jsonPart truncatedBody,
    jsonPart secondDirectiveBody]

/-- A response with status 200 whose only part has the one-byte Content-ID `a`. -/
def shortIdResponse : HttpResponse :=
  sampleResponse 200 "" [contentPart "a" [1]]

/-- A response with status 200: the envelope `{}` without directive field, then a
directive. -/
def emptyEnvelopeResponse : HttpResponse :=
  sampleResponse 200 "" [jsonPart "\x7b\x7d", jsonPart directiveBody]

/-! ## Vocabulary of the specification -/

/-- The header value with its first and last byte removed. -/
def contentKey (contentId : GoString) : GoString :=
  (contentId.take (contentId.length - 1)).drop 1

/-- The header value `<id>` of an identifier. -/
def bracketed (id : GoString) : GoString := ascii "<" ++ id ++ ascii ">"

/-- The media type of the part, when its Content-Type header parses. -/
def mediaTypeOf (L : Lib) (p : Part) : Option GoString :=
  match L.parseMediaType p.ContentType with
  | .ok mediatype => some mediatype
  | .error _ => none

/-- The directive field of the envelope in the body of the part. -/
def directiveOf (L : Lib) (p : Part) : Option Message :=
  (L.unmarshalResponsePart p.ReadAll.1).1.Directive

/-- The body of the part is read and decodes as JSON into a `responsePart`. -/
def decodes (L : Lib) (p : Part) : Bool :=
  p.ReadAll.2 = none ∧ (L.unmarshalResponsePart p.ReadAll.1).2 = none

/-- A JSON-directive part, by its shape: no Content-ID and the media type
application/json. -/
def isDirectivePart (L : Lib) (p : Part) : Bool :=
  p.ContentID = [] ∧ mediaTypeOf L p = some (ascii "application/json")

/-- A content part, by its shape: it carries a Content-ID. -/
def isContentPart (p : Part) : Bool :=
  p.ContentID ≠ []

/-- The Content-Type header of the part parses as a media type and its body is read. -/
def isReadable (L : Lib) (p : Part) : Bool :=
  mediaTypeOf L p ≠ none ∧ p.ReadAll.2 = none

/-- The body of the part decodes to an envelope whose directive field is present. -/
def holdsDirective (L : Lib) (p : Part) : Bool :=
  decodes L p ∧ directiveOf L p ≠ none

/-- An entry of the reader at which the downchannel loop stops: `NextPart` fails, or the
body of the part is not read, or it does not decode. -/
def malformed (L : Lib) : Except ExternalError Part → Bool
  | .error _ => true
  | .ok p => !decodes L p

/-- The response `Do` starts from (lines 118-122). -/
def emptyResponse (resp : HttpResponse) : Response :=
  { RequestId := resp.RequestId, Directives := [], Content := [] }

/-! ## Lemmas on the Go primitives -/

theorem sliceString_isSome_iff (s : GoString) (hs : s ≠ []) :
    (sliceString s 1 ((s.length : Int) - 1)).isSome ↔ 2 ≤ s.length := by
  have hpos : 0 < s.length := List.length_pos.mpr hs
  unfold sliceString
  constructor
  · intro h
    split at h
    · rename_i hc
      omega
    · simp at h
  · intro h
    have hc : (0 : Int) ≤ 1 ∧ (1 : Int) ≤ (s.length : Int) - 1 ∧
        (s.length : Int) - 1 ≤ (s.length : Int) := by omega
    rw [if_pos hc]
    rfl

theorem sliceString_of_two_le (s : GoString) (h : 2 ≤ s.length) :
    sliceString s 1 ((s.length : Int) - 1) = some (contentKey s) := by
  have hc : (0 : Int) ≤ 1 ∧ (1 : Int) ≤ (s.length : Int) - 1 ∧
      (s.length : Int) - 1 ≤ (s.length : Int) := by omega
  have h1 : ((s.length : Int) - 1).toNat = s.length - 1 := by omega
  have h2 : (1 : Int).toNat = 1 := rfl
  unfold sliceString contentKey
  rw [if_pos hc, h1, h2]

theorem sliceString_of_length_one (s : GoString) (h : s.length = 1) :
    sliceString s 1 ((s.length : Int) - 1) = none := by
  have hc : ¬ ((0 : Int) ≤ 1 ∧ (1 : Int) ≤ (s.length : Int) - 1 ∧
      (s.length : Int) - 1 ≤ (s.length : Int)) := by omega
  unfold sliceString
  rw [if_neg hc]

theorem contentKey_bracketed (id : GoString) : contentKey (bracketed id) = id := by
  have h : bracketed id = 60 :: (id ++ [62]) := rfl
  rw [h]
  unfold contentKey
  simp [List.take_append_eq_append_take]

theorem bracketed_length (id : GoString) : 2 ≤ (bracketed id).length := by
  have h : bracketed id = 60 :: (id ++ [62]) := rfl
  rw [h]
  simp

theorem mapGet_mapSet_same (m : List (GoString × Bytes)) (k : GoString) (v : Bytes) :
    mapGet (mapSet m k v) k = some v := by
  induction m with
  | nil => simp [mapSet, mapGet]
  | cons kv rest ih =>
    obtain ⟨k', v'⟩ := kv
    by_cases h : k' = k
    · simp [mapSet, mapGet, h]
    · simp [mapSet, mapGet, h, ih]

theorem mapGet_mapSet_ne (m : List (GoString × Bytes)) (k k0 : GoString) (v : Bytes)
    (h : k ≠ k0) : mapGet (mapSet m k v) k0 = mapGet m k0 := by
  induction m with
  | nil => simp [mapSet, mapGet, h]
  | cons kv rest ih =>
    obtain ⟨k', v'⟩ := kv
    by_cases h1 : k' = k
    · subst h1
      simp [mapSet, mapGet, h]
    · by_cases h2 : k' = k0
      · subst h2
        simp [mapSet, mapGet, h1]
      · simp [mapSet, mapGet, h1, h2, ih]

theorem mapSet_keys_of_not_mem (m : List (GoString × Bytes)) (k : GoString) (v : Bytes)
    (h : k ∉ m.map Prod.fst) : (mapSet m k v).map Prod.fst = m.map Prod.fst ++ [k] := by
  induction m with
  | nil => simp [mapSet]
  | cons kv rest ih =>
    obtain ⟨k', v'⟩ := kv
    simp only [List.map_cons, List.mem_cons, not_or] at h
    have h1 : ¬ k' = k := fun e => h.1 e.symm
    simp [mapSet, h1, ih h.2]


/-! ## Lemmas on `Do` -/

theorem Do_of_status_200 (L : Lib) (resp : HttpResponse) (h : resp.StatusCode = 200) :
    Client.Do L (.ok resp) =
      match resp.Multipart with
      | .error e => .error (.external e)
      | .ok mr => Client.Do.loop L mr (emptyResponse resp) := by
  simp [Client.Do, checkStatusCode, h, emptyResponse]

theorem Do_loop_append (L : Lib) (xs ys : MultipartReader) (r : Response) :
    Client.Do.loop L (xs ++ ys) r =
      match Client.Do.loop L xs r with
      | .ok r' => Client.Do.loop L ys r'
      | .error e => .error e
      | .panic => .panic := by
  induction xs generalizing r with
  | nil => simp [Client.Do.loop]
  | cons x xs ih =>
    cases x with
    | error e => simp [Client.Do.loop]
    | ok p =>
      simp only [List.cons_append, Client.Do.loop]
      cases hp : Client.Do.part L p r with
      | ok r' => simpa using ih r'
      | error e => rfl
      | panic => rfl

/-- The outcome of `Do` on a response with status 200 is decided at the part `p` by the body
of the loop, once the parts before `p` have been accepted with the response `r` built. -/
theorem Do_at_part (L : Lib) (resp : HttpResponse) (pre post : MultipartReader) (p : Part)
    (r : Response) (h200 : resp.StatusCode = 200)
    (hmr : resp.Multipart = .ok (pre ++ .ok p :: post))
    (hpre : Client.Do.loop L pre (emptyResponse resp) = .ok r) :
    Client.Do L (.ok resp) =
      match Client.Do.part L p r with
      | .ok r' => Client.Do.loop L post r'
      | .error e => .error e
      | .panic => .panic := by
  rw [Do_of_status_200 L resp h200, hmr]
  simp only []
  rw [Do_loop_append, hpre]
  simp only [Client.Do.loop]

/-! ## The body of the loop of `Do`, case by case -/

theorem Do_part_no_media_type (L : Lib) (p : Part) (r : Response) (e : ExternalError)
    (hmt : L.parseMediaType p.ContentType = .error e) :
    Client.Do.part L p r = .error (.external e) := by
  simp [Client.Do.part, hmt]

theorem Do_part_content (L : Lib) (p : Part) (r : Response) (mt : GoString) (data : Bytes)
    (hmt : L.parseMediaType p.ContentType = .ok mt) (hread : p.ReadAll = (data, none))
    (hlen : 2 ≤ p.ContentID.length) :
    Client.Do.part L p r =
      .ok { r with Content := mapSet r.Content (contentKey p.ContentID) data } := by
  have hne : p.ContentID ≠ [] := by
    intro h
    rw [h] at hlen
    simp at hlen
  simp [Client.Do.part, hmt, hread, hne, sliceString_of_two_le p.ContentID hlen]

theorem Do_part_panic (L : Lib) (p : Part) (r : Response) (mt : GoString) (data : Bytes)
    (hmt : L.parseMediaType p.ContentType = .ok mt) (hread : p.ReadAll = (data, none))
    (hlen : p.ContentID.length = 1) :
    Client.Do.part L p r = .panic := by
  have hne : p.ContentID ≠ [] := by
    intro h
    rw [h] at hlen
    simp at hlen
  simp [Client.Do.part, hmt, hread, hne, sliceString_of_length_one p.ContentID hlen]

theorem Do_part_directive (L : Lib) (p : Part) (r : Response) (data : Bytes) (d : Message)
    (hmt : L.parseMediaType p.ContentType = .ok (ascii "application/json"))
    (hread : p.ReadAll = (data, none)) (hid : p.ContentID = [])
    (hjson : L.unmarshalResponsePart data = (⟨some d⟩, none)) :
    Client.Do.part L p r = .ok { r with Directives := r.Directives ++ [some d] } := by
  simp [Client.Do.part, hmt, hread, hid, hjson]

theorem Do_part_missing_directive (L : Lib) (p : Part) (r : Response) (data : Bytes)
    (hmt : L.parseMediaType p.ContentType = .ok (ascii "application/json"))
    (hread : p.ReadAll = (data, none)) (hid : p.ContentID = [])
    (hjson : L.unmarshalResponsePart data = (⟨none⟩, none)) :
    Client.Do.part L p r = .error (.missingDirective data) := by
  simp [Client.Do.part, hmt, hread, hid, hjson]

theorem Do_part_json_error (L : Lib) (p : Part) (r : Response) (data : Bytes)
    (rp : responsePart) (e : ExternalError)
    (hmt : L.parseMediaType p.ContentType = .ok (ascii "application/json"))
    (hread : p.ReadAll = (data, none)) (hid : p.ContentID = [])
    (hjson : L.unmarshalResponsePart data = (rp, some e)) :
    Client.Do.part L p r = .error (.external e) := by
  simp [Client.Do.part, hmt, hread, hid, hjson]

theorem Do_part_unhandled (L : Lib) (p : Part) (r : Response) (mt : GoString) (data : Bytes)
    (hmt : L.parseMediaType p.ContentType = .ok mt) (hread : p.ReadAll = (data, none))
    (hid : p.ContentID = []) (hne : mt ≠ ascii "application/json") :
    Client.Do.part L p r = .error (.unhandledPart p) := by
  simp [Client.Do.part, hmt, hread, hid, hne]

/-- A part the loop accepts is read, and is either a content part with a Content-ID of two
bytes or more, stored under the key, or a part without Content-ID whose directive, not nil,
is appended. -/
theorem Do_part_ok (L : Lib) (p : Part) (r r' : Response)
    (h : Client.Do.part L p r = .ok r') :
    p.ReadAll.2 = none ∧
    ((p.ContentID ≠ [] ∧ 2 ≤ p.ContentID.length ∧
        r' = { r with Content := mapSet r.Content (contentKey p.ContentID) p.ReadAll.1 }) ∨
      (p.ContentID = [] ∧ ∃ d : Message,
        r' = { r with Directives := r.Directives ++ [some d] })) := by
  unfold Client.Do.part at h
  cases hmt : L.parseMediaType p.ContentType with
  | error e => simp [hmt] at h
  | ok mt =>
    rcases hread : p.ReadAll with ⟨data, rerr⟩
    cases rerr with
    | some e => simp [hmt, hread] at h
    | none =>
      refine ⟨by simp, ?_⟩
      by_cases hid : p.ContentID = []
      · right
        refine ⟨hid, ?_⟩
        by_cases hj : mt = ascii "application/json"
        · rcases hjson : L.unmarshalResponsePart data with ⟨rp, jerr⟩
          cases jerr with
          | some e => simp [hmt, hread, hid, hj, hjson] at h
          | none =>
            obtain ⟨dir⟩ := rp
            cases dir with
            | none => simp [hmt, hread, hid, hj, hjson] at h
            | some d =>
              simp [hmt, hread, hid, hj, hjson] at h
              exact ⟨d, h.symm⟩
        · simp [hmt, hread, hid, hj] at h
      · left
        refine ⟨hid, ?_⟩
        have hlen : 2 ≤ p.ContentID.length := by
          by_contra hlt
          have h1 : p.ContentID.length = 1 := by
            have := List.length_pos.mpr hid
            omega
          simp [hmt, hread, hid, sliceString_of_length_one p.ContentID h1] at h
        refine ⟨hlen, ?_⟩
        simp [hmt, hread, hid, sliceString_of_two_le p.ContentID hlen] at h
        exact h.symm

/-! ## The loop of `Do` on well-formed parts -/

/-- On parts that are each a JSON-directive part or a content part, all with a Content-Type
that parses and a body that is read, where every JSON-directive part holds a directive,
every Content-ID has two bytes or more and the keys are pairwise distinct and new to the
map, the loop returns the response with the directives appended in order and one new entry
per content part. -/
theorem Do_loop_well_formed (L : Lib) (parts : List Part) (r : Response)
    (hshape : ∀ p ∈ parts, isDirectivePart L p ∨ isContentPart p)
    (hread : ∀ p ∈ parts, isReadable L p)
    (hdir : ∀ p ∈ parts, isDirectivePart L p → holdsDirective L p)
    (hlen : ∀ p ∈ parts, isContentPart p → 2 ≤ p.ContentID.length)
    (hnodup : ((parts.filter isContentPart).map (fun p => contentKey p.ContentID)).Nodup)
    (hnew : ∀ k ∈ (parts.filter isContentPart).map (fun p => contentKey p.ContentID),
      k ∉ r.Content.map Prod.fst) :
    ∃ r', Client.Do.loop L (parts.map .ok) r = .ok r' ∧
      r'.RequestId = r.RequestId ∧
      r'.Directives =
        r.Directives ++ (parts.filter (isDirectivePart L)).map (directiveOf L) ∧
      r'.Content.map Prod.fst =
        r.Content.map Prod.fst ++
          (parts.filter isContentPart).map (fun p => contentKey p.ContentID) := by
  induction parts generalizing r with
  | nil => exact ⟨r, by simp [Client.Do.loop]⟩
  | cons p parts ih =>
    have hshape' : ∀ q ∈ parts, isDirectivePart L q ∨ isContentPart q :=
      fun q hq => hshape q (List.mem_cons_of_mem _ hq)
    have hread' : ∀ q ∈ parts, isReadable L q :=
      fun q hq => hread q (List.mem_cons_of_mem _ hq)
    have hdir' : ∀ q ∈ parts, isDirectivePart L q → holdsDirective L q :=
      fun q hq => hdir q (List.mem_cons_of_mem _ hq)
    have hlen' : ∀ q ∈ parts, isContentPart q → 2 ≤ q.ContentID.length :=
      fun q hq => hlen q (List.mem_cons_of_mem _ hq)
    have hp := hread p (List.mem_cons_self _ _)
    simp only [isReadable, mediaTypeOf, Bool.decide_and, Bool.and_eq_true,
      decide_eq_true_eq] at hp
    obtain ⟨hmt0, hrd⟩ := hp
    rcases hra : p.ReadAll with ⟨data, rerr⟩
    rw [hra] at hrd
    change rerr = none at hrd
    subst hrd
    cases hparse : L.parseMediaType p.ContentType with
    | error e => simp [hparse] at hmt0
    | ok mt =>
      rcases hshape p (List.mem_cons_self _ _) with hd | hc
      · -- a directive part
        have hd' := hd
        simp only [isDirectivePart, mediaTypeOf, hparse, Bool.decide_and, Bool.and_eq_true,
          decide_eq_true_eq, Option.some.injEq] at hd'
        obtain ⟨hid, hmt⟩ := hd'
        subst hmt
        have hnc : isContentPart p = false := by
          simp [isContentPart, hid]
        have hh := hdir p (List.mem_cons_self _ _) hd
        simp only [holdsDirective, decodes, directiveOf, hra, Bool.decide_and,
          Bool.and_eq_true, decide_eq_true_eq] at hh
        obtain ⟨⟨_, hjerr⟩, hsome⟩ := hh
        rcases hjs : L.unmarshalResponsePart data with ⟨rp, jerr⟩
        have hdo : directiveOf L p = rp.Directive := by
          simp [directiveOf, hra, hjs]
        rw [hjs] at hjerr hsome
        change jerr = none at hjerr
        subst hjerr
        obtain ⟨dir⟩ := rp
        cases dir with
        | none => exact absurd rfl hsome
        | some d =>
          have hstep := Do_part_directive L p r data d hparse hra hid hjs
          simp only [List.filter_cons, hnc] at hnodup hnew
          obtain ⟨r', hloop, hreq, hdirs, hkeys⟩ :=
            ih { r with Directives := r.Directives ++ [some d] } hshape' hread' hdir' hlen'
              (by simpa using hnodup) (by simpa using hnew)
          refine ⟨r', ?_, hreq, ?_, ?_⟩
          · simp only [List.map_cons, Client.Do.loop, hstep]
            exact hloop
          · rw [hdirs]
            simp [List.filter_cons, hd, hdo]
          · rw [hkeys]
            simp [List.filter_cons, hnc]
      · -- a content part
        have hid : p.ContentID ≠ [] := by
          simpa [isContentPart] using hc
        have hnd : isDirectivePart L p = false := by
          simp [isDirectivePart, hid]
        have hl := hlen p (List.mem_cons_self _ _) hc
        have hstep := Do_part_content L p r mt data hparse hra hl
        simp only [List.filter_cons, hc, if_true, List.map_cons, List.nodup_cons,
          List.mem_cons, forall_eq_or_imp] at hnodup hnew
        have hkeys1 := mapSet_keys_of_not_mem r.Content (contentKey p.ContentID) data hnew.1
        obtain ⟨r', hloop, hreq, hdirs, hkeys⟩ :=
          ih { r with Content := mapSet r.Content (contentKey p.ContentID) data }
            hshape' hread' hdir' hlen' hnodup.2 (by
              intro k hk
              simp only [hkeys1, List.mem_append, List.mem_singleton, not_or]
              refine ⟨hnew.2 k hk, ?_⟩
              intro hkeq
              rw [hkeq] at hk
              exact hnodup.1 hk)
        refine ⟨r', ?_, hreq, ?_, ?_⟩
        · simp only [List.map_cons, Client.Do.loop, hstep]
          exact hloop
        · rw [hdirs]
          simp [List.filter_cons, hnd]
        · rw [hkeys]
          simp [List.filter_cons, hc, hkeys1]

/-- The loop keeps the entry under `id` when no later content part has the key `id`. -/
theorem Do_loop_keeps_entry (L : Lib) (id : GoString) (mr : MultipartReader)
    (r r' : Response) (h : Client.Do.loop L mr r = .ok r')
    (hlast : ∀ q, Except.ok q ∈ mr → q.ContentID ≠ [] → contentKey q.ContentID ≠ id) :
    mapGet r'.Content id = mapGet r.Content id := by
  induction mr generalizing r with
  | nil =>
    simp only [Client.Do.loop, Outcome.ok.injEq] at h
    rw [h]
  | cons x mr ih =>
    cases x with
    | error e => simp [Client.Do.loop] at h
    | ok q =>
      simp only [Client.Do.loop] at h
      cases hq : Client.Do.part L q r with
      | error e => simp [hq] at h
      | panic => simp [hq] at h
      | ok r1 =>
        simp only [hq] at h
        have hlast' : ∀ q', Except.ok q' ∈ mr → q'.ContentID ≠ [] →
            contentKey q'.ContentID ≠ id :=
          fun q' hq' => hlast q' (List.mem_cons_of_mem _ hq')
        rw [ih r1 h hlast']
        rcases (Do_part_ok L q r r1 hq).2 with ⟨hne, _, hr1⟩ | ⟨_, d, hr1⟩
        · rw [hr1]
          exact mapGet_mapSet_ne r.Content _ id _ (hlast q (List.mem_cons_self _ _) hne)
        · rw [hr1]

/-- Every directive of a response returned by the loop is non-nil when those it started
from are. -/
theorem Do_loop_directives_non_nil (L : Lib) (mr : MultipartReader) (r r' : Response)
    (h : Client.Do.loop L mr r = .ok r') (hr : ∀ d ∈ r.Directives, d ≠ none) :
    ∀ d ∈ r'.Directives, d ≠ none := by
  induction mr generalizing r with
  | nil =>
    simp only [Client.Do.loop, Outcome.ok.injEq] at h
    rw [← h]
    exact hr
  | cons x mr ih =>
    cases x with
    | error e => simp [Client.Do.loop] at h
    | ok q =>
      simp only [Client.Do.loop] at h
      cases hq : Client.Do.part L q r with
      | error e => simp [hq] at h
      | panic => simp [hq] at h
      | ok r1 =>
        simp only [hq] at h
        apply ih r1 h
        rcases (Do_part_ok L q r r1 hq).2 with ⟨_, _, hr1⟩ | ⟨_, d, hr1⟩
        · rw [hr1]
          exact hr
        · rw [hr1]
          intro d' hd'
          simp only [List.mem_append, List.mem_singleton] at hd'
          rcases hd' with hd' | hd'
          · exact hr d' hd'
          · rw [hd']
            simp

/-! ## Lemmas on the downchannel -/

theorem downchannel_loop_sends (L : Lib) (pre : List Part) (rest : MultipartReader)
    (hpre : ∀ p ∈ pre, decodes L p)
    (hrest : ∀ x, rest.head? = some x → malformed L x) :
    Client.CreateDownchannel.loop L (pre.map .ok ++ rest) =
      pre.map (fun p => ChanEvent.send (directiveOf L p)) := by
  induction pre with
  | nil =>
    cases rest with
    | nil => rfl
    | cons x rest =>
      have hx := hrest x rfl
      cases x with
      | error e => rfl
      | ok q =>
        simp only [malformed, decodes, Bool.not_eq_true', decide_eq_false_iff_not,
          not_and] at hx
        rcases hra : q.ReadAll with ⟨data, rerr⟩
        cases rerr with
        | some e => simp [Client.CreateDownchannel.loop, hra]
        | none =>
          have hj := hx (by rw [hra])
          rw [hra] at hj
          rcases hjs : L.unmarshalResponsePart data with ⟨rp, jerr⟩
          cases jerr with
          | some e => simp [Client.CreateDownchannel.loop, hra, hjs]
          | none =>
            rw [hjs] at hj
            exact absurd rfl hj
  | cons p pre ih =>
    have hp := hpre p (List.mem_cons_self _ _)
    simp only [decodes, Bool.decide_and, Bool.and_eq_true, decide_eq_true_eq] at hp
    rcases hra : p.ReadAll with ⟨data, rerr⟩
    rw [hra] at hp
    obtain ⟨h1, h2⟩ := hp
    change rerr = none at h1
    change (L.unmarshalResponsePart data).2 = none at h2
    subst h1
    rcases hjs : L.unmarshalResponsePart data with ⟨rp, jerr⟩
    rw [hjs] at h2
    change jerr = none at h2
    subst h2
    have ih' := ih (fun q hq => hpre q (List.mem_cons_of_mem _ hq))
    simp [Client.CreateDownchannel.loop, hra, hjs, ih', directiveOf]

theorem reader_split (L : Lib) (mr : MultipartReader) :
    ∃ (pre : List Part) (rest : MultipartReader), mr = pre.map .ok ++ rest ∧
      (∀ p ∈ pre, decodes L p) ∧ (∀ x, rest.head? = some x → malformed L x) := by
  induction mr with
  | nil => exact ⟨[], [], rfl, by simp, by simp⟩
  | cons x mr ih =>
    by_cases hx : malformed L x
    · refine ⟨[], x :: mr, rfl, by simp, ?_⟩
      intro y hy
      simp only [List.head?_cons, Option.some.injEq] at hy
      rw [← hy]
      exact hx
    · cases x with
      | error e => simp [malformed] at hx
      | ok p =>
        obtain ⟨pre, rest, hsplit, hpre, hrest⟩ := ih
        refine ⟨p :: pre, rest, by simp [hsplit], ?_, hrest⟩
        intro q hq
        rcases List.mem_cons.mp hq with hq | hq
        · rw [hq]
          simpa [malformed] using hx
        · exact hpre q hq

theorem delivered_sends (ds : List (Option Message)) :
    delivered (ds.map ChanEvent.send ++ [ChanEvent.close]) = ds := by
  induction ds with
  | nil => rfl
  | cons d ds ih => simp [delivered, ih]

/-! ## Lemmas on the outcome of the calls -/

theorem status_code_cases (L : Lib) (resp : HttpResponse) :
    (resp.StatusCode = 200 → checkStatusCode L resp = (true, none)) ∧
    (resp.StatusCode = 204 → checkStatusCode L resp = (false, none)) ∧
    (resp.StatusCode ≠ 200 → resp.StatusCode ≠ 204 → (checkStatusCode L resp).2 ≠ none) := by
  refine ⟨?_, ?_, ?_⟩
  · intro h
    simp [checkStatusCode, h]
  · intro h
    simp [checkStatusCode, h]
  · intro h1 h2
    unfold checkStatusCode
    rw [if_neg h1, if_neg h2]
    by_cases hc : (L.unmarshalException resp.Body.1).1.Payload.Code = [] <;> simp [hc]

theorem Do_directives_non_nil (L : Lib) (sent : Except ExternalError HttpResponse)
    (r : Response) (h : Client.Do L sent = .ok r) : ∀ d ∈ r.Directives, d ≠ none := by
  cases sent with
  | error e => simp [Client.Do] at h
  | ok resp =>
    simp only [Client.Do] at h
    rcases hc : checkStatusCode L resp with ⟨more, err⟩
    rw [hc] at h
    cases err with
    | some e => simp at h
    | none =>
      cases more with
      | false =>
        simp at h
        rw [← h]
        simp
      | true =>
        simp only [Bool.not_true, Bool.false_eq_true, if_false] at h
        cases hm : resp.Multipart with
        | error e => simp [hm] at h
        | ok mr =>
          simp only [hm] at h
          exact Do_loop_directives_non_nil L mr _ r h (by simp)

/-! ## The status classifier -/

/-- C1: `checkStatusCode` returns `(true, nil)` on status 200, `(false, nil)` on status 204
and `(false, err)` with a non-nil `err` on every other status; the error is nil exactly when
the status is 200 or 204. -/
theorem checkStatusCode_classifies (L : Lib) (resp : HttpResponse) :
    (resp.StatusCode = 200 → checkStatusCode L resp = (true, none)) ∧
    (resp.StatusCode = 204 → checkStatusCode L resp = (false, none)) ∧
    (resp.StatusCode ≠ 200 → resp.StatusCode ≠ 204 →
      (checkStatusCode L resp).1 = false ∧ (checkStatusCode L resp).2 ≠ none) ∧
    ((checkStatusCode L resp).2 = none ↔ resp.StatusCode = 200 ∨ resp.StatusCode = 204) := by
  refine ⟨?_, ?_, ?_, ?_⟩
  · intro h
    simp [checkStatusCode, h]
  · intro h
    simp [checkStatusCode, h]
  · intro h1 h2
    unfold checkStatusCode
    rw [if_neg h1, if_neg h2]
    by_cases hc : (L.unmarshalException resp.Body.1).1.Payload.Code = [] <;> simp [hc]
  · constructor
    · intro h
      by_contra hne
      rw [not_or] at hne
      unfold checkStatusCode at h
      rw [if_neg hne.1, if_neg hne.2] at h
      by_cases hc : (L.unmarshalException resp.Body.1).1.Payload.Code = [] <;> simp [hc] at h
    · rintro (h | h) <;> simp [checkStatusCode, h]

/-- The classification evaluated on the statuses 200, 204 and 404. -/
theorem checkStatusCode_classifies_witness :
    checkStatusCode sampleLib (sampleResponse 200 "" []) = (true, none) ∧
    checkStatusCode sampleLib (sampleResponse 204 "" []) = (false, none) ∧
    ((checkStatusCode sampleLib (sampleResponse 404 "" [])).1 = false ∧
      (checkStatusCode sampleLib (sampleResponse 404 "" [])).2 ≠ none) :=
  ⟨(checkStatusCode_classifies sampleLib (sampleResponse 200 "" [])).1 (by decide),
   (checkStatusCode_classifies sampleLib (sampleResponse 204 "" [])).2.1 (by decide),
   (checkStatusCode_classifies sampleLib (sampleResponse 404 "" [])).2.2.1
     (by decide) (by decide)⟩

/-- C2, as stated, fails: on status 500 with the body
`{"payload":{"code":"X","code":5}}` the call to `json.Unmarshal` returns an error (a number
where a string is expected) after it has stored the code `X`; `checkStatusCode` drops that
error and returns the Exception, not the generic error. -/
theorem checkStatusCode_undecodable_counterexample :
    ¬ (∀ (L : Lib) (resp : HttpResponse),
        resp.StatusCode ≠ 200 → resp.StatusCode ≠ 204 →
        (resp.Body.1 = [] ∨ (L.unmarshalException resp.Body.1).2 ≠ none) →
        (checkStatusCode L resp).2 = some (Error.requestFailed resp.Status)) := by
  intro h
  have h1 := h sampleLib
    (sampleResponse 500 "\x7b\"payload\":\x7b\"code\":\"X\",\"code\":5\x7d\x7d" [])
    (by decide) (by decide) (Or.inr (by decide))
  revert h1
  decide

/-- C2, amended: on a status other than 200 and 204, `checkStatusCode` returns the decoded
Exception when decoding the body leaves a non-empty code in it (whether or not
`json.Unmarshal` also returned an error), and the generic error made from the status text when
decoding leaves the code empty, as when `json.Unmarshal` fails and leaves the zero value
untouched; it never returns an Exception with the empty code. -/
theorem checkStatusCode_failure (L : Lib) (resp : HttpResponse)
    (h200 : resp.StatusCode ≠ 200) (h204 : resp.StatusCode ≠ 204) :
    (∀ e err, L.unmarshalException resp.Body.1 = (e, err) → e.Payload.Code ≠ [] →
      checkStatusCode L resp = (false, some (Error.exception e))) ∧
    ((L.unmarshalException resp.Body.1).1.Payload.Code = [] →
      checkStatusCode L resp = (false, some (Error.requestFailed resp.Status))) ∧
    (∀ err, L.unmarshalException resp.Body.1 = (Exception.zero, some err) →
      checkStatusCode L resp = (false, some (Error.requestFailed resp.Status))) ∧
    (∀ e, (checkStatusCode L resp).2 = some (Error.exception e) → e.Payload.Code ≠ []) := by
  refine ⟨?_, ?_, ?_, ?_⟩
  · intro e err he hcode
    unfold checkStatusCode
    rw [if_neg h200, if_neg h204]
    simp [he, hcode]
  · intro hcode
    unfold checkStatusCode
    rw [if_neg h200, if_neg h204]
    simp [hcode]
  · intro err herr
    unfold checkStatusCode
    rw [if_neg h200, if_neg h204]
    simp [herr, Exception.zero]
  · intro e he
    unfold checkStatusCode at he
    rw [if_neg h200, if_neg h204] at he
    by_cases hc : (L.unmarshalException resp.Body.1).1.Payload.Code = []
    · simp [hc] at he
    · simp [hc] at he
      rw [← he]
      exact hc

/-- The failure branch evaluated on status 500: the body
`{"payload":{"code":"X","message":"Y"}}` gives the Exception with code `X`, the empty body
gives the generic error. -/
theorem checkStatusCode_failure_witness :
    checkStatusCode sampleLib
        (sampleResponse 500
          "\x7b\"payload\":\x7b\"code\":\"X\",\"message\":\"Y\"\x7d\x7d" []) =
      (false, some (Error.exception ⟨⟨ascii "X", ascii "Y"⟩⟩)) ∧
    checkStatusCode sampleLib (sampleResponse 500 "" []) =
      (false, some (Error.requestFailed (ascii "status"))) :=
  ⟨(checkStatusCode_failure sampleLib
      (sampleResponse 500 "\x7b\"payload\":\x7b\"code\":\"X\",\"message\":\"Y\"\x7d\x7d" [])
      (by decide) (by decide)).1 ⟨⟨ascii "X", ascii "Y"⟩⟩ none (by decide) (by decide),
   (checkStatusCode_failure sampleLib (sampleResponse 500 "" [])
      (by decide) (by decide)).2.1 (by decide)⟩

/-! ## Status 204 in `Do` -/

/-- C6: on status 204 `Do` returns, without error, the Response with the request identifier
of the response headers, no directive and no content, whatever the body holds: the result
is the same for every library behaviour and every response with status 204 and that
identifier, so the body is not parsed. -/
theorem Do_no_content (L : Lib) (resp : HttpResponse) (h : resp.StatusCode = 204) :
    Client.Do L (.ok resp) =
      .ok { RequestId := resp.RequestId, Directives := [], Content := [] } ∧
    (∀ (L' : Lib) (resp' : HttpResponse), resp'.StatusCode = 204 →
      resp'.RequestId = resp.RequestId → Client.Do L' (.ok resp') = Client.Do L (.ok resp)) := by
  have key : ∀ (L0 : Lib) (r0 : HttpResponse), r0.StatusCode = 204 →
      Client.Do L0 (.ok r0) =
        .ok { RequestId := r0.RequestId, Directives := [], Content := [] } := by
    intro L0 r0 h0
    simp [Client.Do, checkStatusCode, h0]
  refine ⟨key L resp h, ?_⟩
  intro L' resp' h' hid
  rw [key L' resp' h', key L resp h, hid]

/-- A response with status 204 whose body holds bytes and parts. -/
theorem Do_no_content_witness :
    Client.Do sampleLib (.ok (sampleResponse 204 "abc" [jsonPart "\x7b\x7d"])) =
      .ok { RequestId := ascii "req-1", Directives := [], Content := [] } :=
  (Do_no_content sampleLib (sampleResponse 204 "abc" [jsonPart "\x7b\x7d"]) (by decide)).1


/-! ## Directives and content of a 200 response -/

/-- C3, as stated, fails. Two content parts with the same Content-ID `<a>`, each with a
Content-Type that parses and a body that is read, give a Response whose Content has one
entry, not two. And a single content part with the Content-ID `<a>` and no Content-Type
header makes `Do` return the error of `mime.ParseMediaType` and no Response. -/
theorem Do_content_count_counterexample :
    ¬ (∀ (L : Lib) (resp : HttpResponse) (parts : List Part),
        resp.StatusCode = 200 → resp.Multipart = .ok (parts.map .ok) →
        (∀ p ∈ parts, isDirectivePart L p ∨ isContentPart p) →
        (∀ p ∈ parts, isReadable L p) →
        (∀ p ∈ parts, isDirectivePart L p → holdsDirective L p) →
        ∃ r, Client.Do L (.ok resp) = .ok r ∧
          r.Directives = (parts.filter (isDirectivePart L)).map (directiveOf L) ∧
          r.Directives.length = (parts.filter (isDirectivePart L)).length ∧
          r.Content.length = (parts.filter isContentPart).length) ∧
    ¬ (∀ (L : Lib) (resp : HttpResponse) (parts : List Part),
        resp.StatusCode = 200 → resp.Multipart = .ok (parts.map .ok) →
        (∀ p ∈ parts, isDirectivePart L p ∨ isContentPart p) →
        ∃ r, Client.Do L (.ok resp) = .ok r) := by
  constructor
  · intro h
    obtain ⟨r, hr, _, _, hlen⟩ := h sampleLib repeatedIdResponse
      [contentPart "<a>" [1], contentPart "<a>" [2]] (by decide) rfl (by decide)
      (by decide) (by decide)
    have hdo : Client.Do sampleLib (.ok repeatedIdResponse) =
        .ok { RequestId := ascii "req-1", Directives := [],
              Content := [(ascii "a", [2])] } := by
      decide
    rw [hdo] at hr
    injection hr with hr
    subst hr
    revert hlen
    decide
  · intro h
    obtain ⟨r, hr⟩ := h sampleLib (sampleResponse 200 "" [untypedContentPart])
      [untypedContentPart] (by decide) rfl (by decide)
    have hdo : Client.Do sampleLib (.ok (sampleResponse 200 "" [untypedContentPart])) =
        .error (.external ⟨"mime: no media type"⟩) := by
      decide
    rw [hdo] at hr
    cases hr

/-- C3, amended: for a 200 response whose multipart body consists of N JSON-directive parts
(no Content-ID, media type application/json) and M content (Content-ID) parts in any
interleaving, where every part has a Content-Type header that parses as a media type and a
body that is read without error, every JSON-directive part decodes to an envelope whose
directive field is present, every Content-ID has two bytes or more and the identifiers,
first and last byte removed, are pairwise distinct, `Do` succeeds and returns a Response
whose Directives are the N directives in arrival order and whose Content has exactly M
entries. -/
theorem Do_directives_and_content (L : Lib) (resp : HttpResponse) (parts : List Part)
    (h200 : resp.StatusCode = 200) (hmr : resp.Multipart = .ok (parts.map .ok))
    (hshape : ∀ p ∈ parts, isDirectivePart L p ∨ isContentPart p)
    (hread : ∀ p ∈ parts, isReadable L p)
    (hdir : ∀ p ∈ parts, isDirectivePart L p → holdsDirective L p)
    (hlen : ∀ p ∈ parts, isContentPart p → 2 ≤ p.ContentID.length)
    (hnodup :
      ((parts.filter isContentPart).map (fun p => contentKey p.ContentID)).Nodup) :
    ∃ r, Client.Do L (.ok resp) = .ok r ∧
      r.Directives = (parts.filter (isDirectivePart L)).map (directiveOf L) ∧
      r.Directives.length = (parts.filter (isDirectivePart L)).length ∧
      r.Content.length = (parts.filter isContentPart).length := by
  obtain ⟨r, hloop, _, hdirs, hkeys⟩ :=
    Do_loop_well_formed L parts (emptyResponse resp) hshape hread hdir hlen hnodup
      (by simp [emptyResponse])
  refine ⟨r, ?_, ?_, ?_, ?_⟩
  · rw [Do_of_status_200 L resp h200, hmr]
    exact hloop
  · simpa [emptyResponse] using hdirs
  · rw [hdirs]
    simp [emptyResponse]
  · have h := congrArg List.length hkeys
    simpa [emptyResponse] using h

/-- The scenario of the specification, one directive and one content part. -/
theorem Do_directives_and_content_witness :
    ∃ r, Client.Do sampleLib (.ok scenarioResponse) = .ok r ∧
      r.Directives =
        ([jsonPart directiveBody, contentPart "<img1>" [0xFF, 0xD8]].filter
          (isDirectivePart sampleLib)).map (directiveOf sampleLib) ∧
      r.Directives.length =
        ([jsonPart directiveBody, contentPart "<img1>" [0xFF, 0xD8]].filter
          (isDirectivePart sampleLib)).length ∧
      r.Content.length =
        ([jsonPart directiveBody, contentPart "<img1>" [0xFF, 0xD8]].filter
          isContentPart).length :=
  Do_directives_and_content sampleLib scenarioResponse
    [jsonPart directiveBody, contentPart "<img1>" [0xFF, 0xD8]] (by decide) rfl
    (by decide) (by decide) (by decide) (by decide) (by decide)

/-! ## Content identifiers -/

/-- C4, as stated, fails: of two parts with the Content-ID `<a>`, the first does not end
up under the key `a`; the entry holds the bytes of the second. -/
theorem Do_content_roundtrip_counterexample :
    ¬ (∀ (L : Lib) (resp : HttpResponse) (mr : MultipartReader) (p : Part)
        (id : GoString) (r : Response),
        resp.StatusCode = 200 → resp.Multipart = .ok mr → Except.ok p ∈ mr →
        p.ContentID = bracketed id → Client.Do L (.ok resp) = .ok r →
        mapGet r.Content id = some p.ReadAll.1) := by
  intro h
  have h1 := h sampleLib repeatedIdResponse
    [.ok (contentPart "<a>" [1]), .ok (contentPart "<a>" [2])] (contentPart "<a>" [1])
    (ascii "a") { RequestId := ascii "req-1", Directives := [], Content := [(ascii "a", [2])] }
    (by decide) rfl (List.mem_cons_self _ _) (by decide) (by decide)
  revert h1
  decide

/-- C4, amended: when `Do` returns a Response for a 200 response, a part carrying the
header `Content-ID: <id>`, for any identifier `id`, that no later part of the response
overwrites (no later part with a Content-ID has the key `id`) results in `Content[id]` being
the raw body bytes of that part; the stored key is the header value with its first and last
byte removed. -/
theorem Do_content_roundtrip (L : Lib) (resp : HttpResponse) (pre post : MultipartReader)
    (p : Part) (id : GoString) (r : Response) (h200 : resp.StatusCode = 200)
    (hmr : resp.Multipart = .ok (pre ++ .ok p :: post))
    (hid : p.ContentID = bracketed id)
    (hlast : ∀ q, Except.ok q ∈ post → q.ContentID ≠ [] → contentKey q.ContentID ≠ id)
    (hr : Client.Do L (.ok resp) = .ok r) :
    mapGet r.Content id = some p.ReadAll.1 ∧ contentKey p.ContentID = id := by
  refine ⟨?_, by rw [hid, contentKey_bracketed]⟩
  rw [Do_of_status_200 L resp h200, hmr] at hr
  simp only [] at hr
  rw [Do_loop_append] at hr
  cases hpre : Client.Do.loop L pre (emptyResponse resp) with
  | error e => simp [hpre] at hr
  | panic => simp [hpre] at hr
  | ok r1 =>
    simp only [hpre, Client.Do.loop] at hr
    cases hp : Client.Do.part L p r1 with
    | error e => simp [hp] at hr
    | panic => simp [hp] at hr
    | ok r2 =>
      simp only [hp] at hr
      rw [Do_loop_keeps_entry L id post r2 r hr hlast]
      have hne : p.ContentID ≠ [] := by
        rw [hid]
        intro h0
        have := bracketed_length id
        rw [h0] at this
        simp at this
      rcases (Do_part_ok L p r1 r2 hp).2 with ⟨_, _, hr2⟩ | ⟨h0, _⟩
      · rw [hr2, hid, contentKey_bracketed]
        exact mapGet_mapSet_same _ _ _
      · exact absurd h0 hne

/-- The scenario of the specification: the part `Content-ID: <img1>` ends up under
`img1`. -/
theorem Do_content_roundtrip_witness :
    Client.Do sampleLib (.ok scenarioResponse) = .ok scenarioResult ∧
    mapGet scenarioResult.Content (ascii "img1") = some [0xFF, 0xD8] ∧
    contentKey (ascii "<img1>") = ascii "img1" :=
  ⟨by decide,
   Do_content_roundtrip sampleLib scenarioResponse [.ok (jsonPart directiveBody)] []
     (contentPart "<img1>" [0xFF, 0xD8]) (ascii "img1") scenarioResult (by decide) rfl
     (by decide) (by intro q hq; cases hq) (by decide)⟩

/-! ## Classification of the parts -/

/-- C5, as stated, fails: a part that carries the Content-ID `<a>` and no Content-Type
header is not stored; `mime.ParseMediaType` fails on the empty value and `Do` returns that
error before it looks at the Content-ID. -/
theorem Do_classifies_part_counterexample :
    ¬ (∀ (L : Lib) (resp : HttpResponse) (pre post : MultipartReader) (p : Part)
        (r : Response) (data : Bytes),
        resp.StatusCode = 200 → resp.Multipart = .ok (pre ++ .ok p :: post) →
        Client.Do.loop L pre (emptyResponse resp) = .ok r →
        p.ReadAll = (data, none) → 2 ≤ p.ContentID.length →
        Client.Do L (.ok resp) =
          Client.Do.loop L post
            { r with Content := mapSet r.Content (contentKey p.ContentID) data }) := by
  intro h
  have h1 := h sampleLib (sampleResponse 200 "" [untypedContentPart]) [] []
    untypedContentPart (emptyResponse (sampleResponse 200 "" [untypedContentPart])) [1]
    (by decide) rfl (by decide) (by decide) (by decide)
  revert h1
  decide

/-- C5, amended: at every part of a 200 response that `Do` reaches, if the Content-Type
header does not parse as a media type, or the body is not read, `Do` returns that error and
no Response, with or without Content-ID. Otherwise the part is of exactly one of two
shapes: with a Content-ID of two bytes or more it is stored as a content blob under the
identifier, whatever its media type; with no Content-ID and the media type application/json
it is decoded as a directive envelope and its directive appended, and `Do` returns an error
if decoding fails or the directive field is absent; with no Content-ID and another media
type `Do` returns an error and no Response. -/
theorem Do_classifies_part (L : Lib) (resp : HttpResponse) (pre post : MultipartReader)
    (p : Part) (r : Response) (h200 : resp.StatusCode = 200)
    (hmr : resp.Multipart = .ok (pre ++ .ok p :: post))
    (hpre : Client.Do.loop L pre (emptyResponse resp) = .ok r) :
    (∀ e, L.parseMediaType p.ContentType = .error e →
      Client.Do L (.ok resp) = .error (.external e)) ∧
    (∀ mt data e, L.parseMediaType p.ContentType = .ok mt → p.ReadAll = (data, some e) →
      Client.Do L (.ok resp) = .error (.external e)) ∧
    (∀ mt data, L.parseMediaType p.ContentType = .ok mt → p.ReadAll = (data, none) →
      (2 ≤ p.ContentID.length →
        Client.Do L (.ok resp) =
          Client.Do.loop L post
            { r with Content := mapSet r.Content (contentKey p.ContentID) data }) ∧
      (p.ContentID = [] → mt = ascii "application/json" →
        (∀ d, L.unmarshalResponsePart data = (⟨some d⟩, none) →
          Client.Do L (.ok resp) =
            Client.Do.loop L post { r with Directives := r.Directives ++ [some d] }) ∧
        (L.unmarshalResponsePart data = (⟨none⟩, none) →
          Client.Do L (.ok resp) = .error (.missingDirective data)) ∧
        (∀ rp e, L.unmarshalResponsePart data = (rp, some e) →
          Client.Do L (.ok resp) = .error (.external e))) ∧
      (p.ContentID = [] → mt ≠ ascii "application/json" →
        Client.Do L (.ok resp) = .error (.unhandledPart p))) := by
  have hdo := Do_at_part L resp pre post p r h200 hmr hpre
  refine ⟨?_, ?_, ?_⟩
  · intro e hmt
    rw [hdo, Do_part_no_media_type L p r e hmt]
  · intro mt data e hmt hread
    rw [hdo]
    simp [Client.Do.part, hmt, hread]
  · intro mt data hmt hread
    refine ⟨?_, ?_, ?_⟩
    · intro hlen
      rw [hdo, Do_part_content L p r mt data hmt hread hlen]
    · intro hid hjson
      subst hjson
      refine ⟨?_, ?_, ?_⟩
      · intro d hd
        rw [hdo, Do_part_directive L p r data d hmt hread hid hd]
      · intro hd
        rw [hdo, Do_part_missing_directive L p r data hmt hread hid hd]
      · intro rp e hd
        rw [hdo, Do_part_json_error L p r data rp e hmt hread hid hd]
    · intro hid hne
      rw [hdo, Do_part_unhandled L p r mt data hmt hread hid hne]

/-- The scenario of the specification at its second part: the part with the Content-ID
`<img1>` is stored under `img1`. -/
theorem Do_classifies_part_witness :
    Client.Do sampleLib (.ok scenarioResponse) =
      Client.Do.loop sampleLib []
        { RequestId := ascii "req-1", Directives := [some ⟨ascii "\x7b\"id\":\"1\"\x7d"⟩],
          Content := mapSet [] (contentKey (ascii "<img1>")) [0xFF, 0xD8] } :=
  ((Do_classifies_part sampleLib scenarioResponse [.ok (jsonPart directiveBody)] []
      (contentPart "<img1>" [0xFF, 0xD8])
      { RequestId := ascii "req-1", Directives := [some ⟨ascii "\x7b\"id\":\"1\"\x7d"⟩],
        Content := [] }
      (by decide) rfl (by decide)).2.2
    (ascii "application/octet-stream") [0xFF, 0xD8] rfl rfl).1 (by decide)


/-! ## The slice of the Content-ID -/

/-- C9: at a part with a non-empty Content-ID that `Do` reaches (its media type parsed and
its body read), the slice `contentId[1:len(contentId)-1]` is in bounds exactly when the value
has two bytes or more; then `Do` stores the part and goes on; on a value of exactly one
byte `Do` aborts with a run-time panic and returns no error. -/
theorem Do_content_key_bounds (L : Lib) (resp : HttpResponse) (pre post : MultipartReader)
    (p : Part) (r : Response) (mt : GoString) (data : Bytes)
    (h200 : resp.StatusCode = 200)
    (hmr : resp.Multipart = .ok (pre ++ .ok p :: post))
    (hpre : Client.Do.loop L pre (emptyResponse resp) = .ok r)
    (hmt : L.parseMediaType p.ContentType = .ok mt) (hread : p.ReadAll = (data, none))
    (hne : p.ContentID ≠ []) :
    ((sliceString p.ContentID 1 ((p.ContentID.length : Int) - 1)).isSome ↔
      2 ≤ p.ContentID.length) ∧
    (2 ≤ p.ContentID.length →
      Client.Do.part L p r =
        .ok { r with Content := mapSet r.Content (contentKey p.ContentID) data } ∧
      Client.Do L (.ok resp) =
        Client.Do.loop L post
          { r with Content := mapSet r.Content (contentKey p.ContentID) data }) ∧
    (p.ContentID.length = 1 → Client.Do L (.ok resp) = .panic) := by
  have hdo := Do_at_part L resp pre post p r h200 hmr hpre
  refine ⟨sliceString_isSome_iff p.ContentID hne, ?_, ?_⟩
  · intro hlen
    have hstep := Do_part_content L p r mt data hmt hread hlen
    exact ⟨hstep, by rw [hdo, hstep]⟩
  · intro hlen
    rw [hdo, Do_part_panic L p r mt data hmt hread hlen]

/-- A part with the one-byte Content-ID `a` makes `Do` panic. -/
theorem Do_content_key_bounds_witness :
    Client.Do sampleLib (.ok shortIdResponse) = .panic :=
  (Do_content_key_bounds sampleLib shortIdResponse [] [] (contentPart "a" [1])
    (emptyResponse shortIdResponse) (ascii "application/octet-stream") [1]
    (by decide) rfl (by decide) rfl rfl (by decide)).2.2 (by decide)

/-! ## The downchannel -/

/-- C7: every sequence of parts arriving on a 200 downchannel response splits as `pre`
followed by `rest`, where every part of `pre` is read and decodes and `rest` is empty (the
connection ends) or starts with a malformed entry (a part that cannot be fetched, read or
decoded). For each such split the goroutine sends the decoded directives of `pre` in arrival
order and then closes the channel: the consumer receives exactly those directives, none of
the malformed part or of a later one, and then sees the end of the sequence. -/
theorem CreateDownchannel_fifo (L : Lib) (resp : HttpResponse) (mr : MultipartReader)
    (h200 : resp.StatusCode = 200) (hmr : resp.Multipart = .ok mr) :
    (∃ (pre : List Part) (rest : MultipartReader), mr = pre.map .ok ++ rest ∧
      (∀ p ∈ pre, decodes L p) ∧ (∀ x, rest.head? = some x → malformed L x)) ∧
    (∀ (pre : List Part) (rest : MultipartReader), mr = pre.map .ok ++ rest →
      (∀ p ∈ pre, decodes L p) → (∀ x, rest.head? = some x → malformed L x) →
      Client.CreateDownchannel L (.ok resp) =
        (some (pre.map (fun p => ChanEvent.send (directiveOf L p)) ++ [ChanEvent.close]),
          none) ∧
      observe (Client.CreateDownchannel L (.ok resp)).1 =
        { received := pre.map (directiveOf L), ended := true }) := by
  refine ⟨reader_split L mr, ?_⟩
  intro pre rest hsplit hpre hrest
  have hcall : Client.CreateDownchannel L (.ok resp) =
      (some (pre.map (fun p => ChanEvent.send (directiveOf L p)) ++ [ChanEvent.close]),
        none) := by
    simp [Client.CreateDownchannel, checkStatusCode, h200,
      Client.CreateDownchannel.goroutine, hmr, hsplit,
      downchannel_loop_sends L pre rest hpre hrest]
  refine ⟨hcall, ?_⟩
  rw [hcall]
  have hmap : pre.map (fun p => ChanEvent.send (directiveOf L p)) =
      (pre.map (directiveOf L)).map ChanEvent.send := by
    simp
  simp only [observe, hmap, delivered_sends]
  simp

/-- A stream with a directive, a truncated part and a second directive: the consumer
receives the first directive only and then sees the end of the sequence. -/
theorem CreateDownchannel_fifo_witness :
    observe (Client.CreateDownchannel sampleLib (.ok truncatedStream)).1 =
      { received := [some ⟨ascii "\x7b\"id\":\"1\"\x7d"⟩], ended := true } :=
  ((CreateDownchannel_fifo sampleLib truncatedStream
      [.ok (jsonPart directiveBody), .ok (jsonPart truncatedBody),
        .ok (jsonPart secondDirectiveBody)] (by decide) rfl).2
    [jsonPart directiveBody]
    [.ok (jsonPart truncatedBody), .ok (jsonPart secondDirectiveBody)] rfl
    (by decide) (by
      intro x hx
      cases hx
      decide)).2

/-- C8, as stated, fails: on status 204 `CreateDownchannel` returns a nil channel and a nil
error; a consumer of a nil channel blocks and never sees the end of the sequence. -/
theorem CreateDownchannel_refused_counterexample :
    ¬ (∀ (L : Lib) (resp : HttpResponse), (checkStatusCode L resp).1 = false →
        observe (Client.CreateDownchannel L (.ok resp)).1 =
          { received := [], ended := true }) := by
  intro h
  have h1 := h sampleLib (sampleResponse 204 "" []) (by decide)
  revert h1
  decide

/-- C8, amended: when the initial downchannel response is classified as Failure or as
Success(hasBody=false) (status 204), `CreateDownchannel` starts no goroutine and returns the
nil channel together with the classified error, which is non-nil for a Failure and nil for
status 204; a consumer of that channel receives no directive and never sees the end of the
sequence. -/
theorem CreateDownchannel_refused (L : Lib) (resp : HttpResponse)
    (h : (checkStatusCode L resp).1 = false) :
    Client.CreateDownchannel L (.ok resp) = (none, (checkStatusCode L resp).2) ∧
    observe (Client.CreateDownchannel L (.ok resp)).1 = { received := [], ended := false } ∧
    (resp.StatusCode ≠ 204 → (Client.CreateDownchannel L (.ok resp)).2 ≠ none) ∧
    (resp.StatusCode = 204 → (Client.CreateDownchannel L (.ok resp)).2 = none) := by
  have hcall : Client.CreateDownchannel L (.ok resp) = (none, (checkStatusCode L resp).2) := by
    rcases hc : checkStatusCode L resp with ⟨more, err⟩
    rw [hc] at h
    change more = false at h
    subst h
    simp [Client.CreateDownchannel, hc]
  have h200 : resp.StatusCode ≠ 200 := by
    intro h2
    rw [(status_code_cases L resp).1 h2] at h
    simp at h
  refine ⟨hcall, ?_, ?_, ?_⟩
  · rw [hcall]
    rfl
  · intro h204
    rw [hcall]
    exact ((status_code_cases L resp).2.2 h200 h204)
  · intro h204
    rw [hcall, (status_code_cases L resp).2.1 h204]

/-- Status 500 with an empty body: the nil channel and the generic error. -/
theorem CreateDownchannel_refused_witness :
    Client.CreateDownchannel sampleLib (.ok (sampleResponse 500 "" [])) =
      (none, some (Error.requestFailed (ascii "status"))) :=
  (CreateDownchannel_refused sampleLib (sampleResponse 500 "" []) (by decide)).1

/-! ## A JSON part without directive field -/

/-- C10: for a part whose body is read and is valid JSON without directive field (the call
to `json.Unmarshal` returns no error and leaves `Directive` nil), `Do`, reaching it as a part
without Content-ID and with the media type application/json, returns the missing-directive
error, whereas the downchannel loop sends a nil directive and goes on with the following
parts, so that a consumer of the downchannel receives a nil directive; every element of the
Directives of a Response returned by `Do` is non-nil. -/
theorem parsers_disagree_on_missing_directive (L : Lib) (resp : HttpResponse)
    (pre post : MultipartReader) (p : Part) (r : Response) (data : Bytes)
    (h200 : resp.StatusCode = 200)
    (hmr : resp.Multipart = .ok (pre ++ .ok p :: post))
    (hpre : Client.Do.loop L pre (emptyResponse resp) = .ok r)
    (hmt : L.parseMediaType p.ContentType = .ok (ascii "application/json"))
    (hid : p.ContentID = []) (hread : p.ReadAll = (data, none))
    (hjson : L.unmarshalResponsePart data = (⟨none⟩, none)) :
    Client.Do L (.ok resp) = .error (.missingDirective data) ∧
    (∀ mr : MultipartReader,
      Client.CreateDownchannel.loop L (.ok p :: mr) =
        ChanEvent.send none :: Client.CreateDownchannel.loop L mr) ∧
    (∀ (down : HttpResponse) (mr : MultipartReader), down.StatusCode = 200 →
      down.Multipart = .ok (.ok p :: mr) →
      none ∈ (observe (Client.CreateDownchannel L (.ok down)).1).received) ∧
    (∀ (L' : Lib) (sent : Except ExternalError HttpResponse) (r' : Response),
      Client.Do L' sent = .ok r' → ∀ d ∈ r'.Directives, d ≠ none) := by
  have hloop : ∀ mr : MultipartReader,
      Client.CreateDownchannel.loop L (.ok p :: mr) =
        ChanEvent.send none :: Client.CreateDownchannel.loop L mr := by
    intro mr
    simp [Client.CreateDownchannel.loop, hread, hjson]
  refine ⟨?_, hloop, ?_, ?_⟩
  · rw [Do_at_part L resp pre post p r h200 hmr hpre,
      Do_part_missing_directive L p r data hmt hread hid hjson]
  · intro down mr hd200 hdmr
    simp [Client.CreateDownchannel, checkStatusCode, hd200,
      Client.CreateDownchannel.goroutine, hdmr, hloop, observe, delivered]
  · intro L' sent r' hdo
    exact Do_directives_non_nil L' sent r' hdo

/-- The envelope `{}` followed by a directive: `Do` returns the missing-directive error, the
downchannel delivers nil and then the directive. -/
theorem parsers_disagree_on_missing_directive_witness :
    Client.Do sampleLib (.ok emptyEnvelopeResponse) =
      .error (.missingDirective (ascii "\x7b\x7d")) ∧
    observe (Client.CreateDownchannel sampleLib (.ok emptyEnvelopeResponse)).1 =
      { received := [none, some ⟨ascii "\x7b\"id\":\"1\"\x7d"⟩], ended := true } :=
  ⟨(parsers_disagree_on_missing_directive sampleLib emptyEnvelopeResponse []
      [.ok (jsonPart directiveBody)] (jsonPart "\x7b\x7d")
      (emptyResponse emptyEnvelopeResponse) (ascii "\x7b\x7d") (by decide) rfl (by decide)
      rfl rfl rfl rfl).1,
   by decide⟩


end Avs
